import Mathlib

/-!
Verification of the passport-sqrl server core (TypeScript) against its
natural-language specification. The TypeScript sources in
`src/passport-sqrl/index.ts` and `src/testSite/TestSiteHandler.ts` are
shallowly embedded below: JavaScript strings are modelled as `List Char`,
byte buffers as `List Nat` (each element < 256), fallible code as `Except`,
and the asynchronous identity-storage collaborator as explicit state
passing plus an event trace.
-/

/-- JavaScript strings are modelled as lists of characters. -/
abbrev JStr := List Char

/-- Bytes of a Node `Buffer`, each < 256. -/
abbrev Bytes := List Nat

/-- JavaScript truthiness of an optional string: `undefined`/`null` and the
empty string are falsy. -/
def jsTruthy : Option JStr → Bool
  | none => false
  | some s => s ≠ []

/-- JavaScript `a || b` over two optional strings (falsy `a` selects `b`). -/
def jsOrOpt (a b : Option JStr) : Option JStr :=
  if jsTruthy a then a else b

/-- JavaScript string coercion of an optional string (as in template
strings and `+`): `undefined` renders as the text "undefined". -/
def jsStr : Option JStr → JStr
  | none => "undefined".toList
  | some s => s

/-- Characters treated as whitespace by JavaScript `String.prototype.trim`
(the ASCII portion plus NBSP, BOM and the Unicode line separators). -/
def isJsWhitespace (c : Char) : Bool :=
  c = ' ' ∨ c = '\t' ∨ c = '\n' ∨ c = '\r' ∨ c = '\x0b' ∨ c = '\x0c' ∨
  c = ' ' ∨ c = '﻿' ∨ c = ' ' ∨ c = ' '

/-- JavaScript `String.prototype.trim`. -/
def jsTrim (s : JStr) : JStr :=
  ((s.dropWhile isJsWhitespace).reverse.dropWhile isJsWhitespace).reverse

/-- JavaScript `split('\r\n')`: splits on every CRLF pair; the empty string
splits to one empty field. -/
def splitCRLF : JStr → List JStr
  | [] => [[]]
  | '\r' :: '\n' :: rest => [] :: splitCRLF rest
  | c :: rest =>
    match splitCRLF rest with
    | [] => [[c]]
    | l :: ls => (c :: l) :: ls

/-- JavaScript `split(sep)` for a one-character separator. -/
def splitChar (sep : Char) : JStr → List JStr
  | [] => [[]]
  | c :: rest =>
    if c = sep then [] :: splitChar sep rest
    else
      match splitChar sep rest with
      | [] => [[c]]
      | l :: ls => (c :: l) :: ls

/-- Join a list of lines with CRLF separators (JavaScript `join("\r\n")`). -/
def joinCRLF : List JStr → JStr
  | [] => []
  | [l] => l
  | l :: ls => l ++ '\r' :: '\n' :: joinCRLF ls

/-- Lowercase hexadecimal digits, for `Number.prototype.toString(16)`. -/
def hexDigit (n : Nat) : Char :=
  if n < 10 then Char.ofNat (48 + n) else Char.ofNat (87 + n)

/-- Worker for `natToHex`, structurally recursive on a fuel bound (the
value itself always suffices as fuel). -/
def natToHexAux : Nat → Nat → JStr
  | 0, _ => []
  | fuel + 1, n =>
    if n < 16 then [hexDigit n]
    else natToHexAux fuel (n / 16) ++ [hexDigit (n % 16)]

/-- JavaScript `n.toString(16)` for a natural number (lowercase hex). -/
def natToHex (n : Nat) : JStr :=
  natToHexAux (n + 1) n

/-- Worker for `natToDec`, structurally recursive on a fuel bound. -/
def natToDecAux : Nat → Nat → JStr
  | 0, _ => []
  | fuel + 1, n =>
    if n < 10 then [Char.ofNat (48 + n)]
    else natToDecAux fuel (n / 10) ++ [Char.ofNat (48 + n % 10)]

/-- Decimal digits of a natural number (JavaScript number-to-string). -/
def natToDec (n : Nat) : JStr :=
  natToDecAux (n + 1) n

/-! ## Base64url codec

Models the `base64url` npm dependency used by the repository
(`base64url.encode` emits unpadded base64url; `base64url.decode` and
`Buffer.from(s, 'base64')` accept both base64 alphabets and ignore `=`
padding), plus the repository's own `toSqrlBase64` / `trimEqualsChars`
from `src/passport-sqrl/index.ts`. -/

/-- The base64url alphabet character for a sextet value (< 64). -/
def b64UrlChar (s : Nat) : Char :=
  if s < 26 then Char.ofNat (65 + s)
  else if s < 52 then Char.ofNat (97 + (s - 26))
  else if s < 62 then Char.ofNat (48 + (s - 52))
  else if s = 62 then '-'
  else '_'

/-- Sextet value of a base64 character; accepts the standard and the url
alphabet, as Node's base64 decoder does. `=` and any other character
decode to `none` (Node ignores them). -/
def b64CharVal (c : Char) : Option Nat :=
  let n := c.toNat
  if 65 ≤ n ∧ n ≤ 90 then some (n - 65)
  else if 97 ≤ n ∧ n ≤ 122 then some (n - 71)
  else if 48 ≤ n ∧ n ≤ 57 then some (n + 4)
  else if c = '-' ∨ c = '+' then some 62
  else if c = '_' ∨ c = '/' then some 63
  else none

/-- Big-endian packing of bytes into base64 sextets, three bytes at a time
(unpadded: one trailing byte yields two sextets, two yield three). -/
def encodeToSextets : Bytes → List Nat
  | [] => []
  | [b1] => [b1 / 4, b1 % 4 * 16]
  | [b1, b2] => [b1 / 4, b1 % 4 * 16 + b2 / 16, b2 % 16 * 4]
  | b1 :: b2 :: b3 :: rest =>
    b1 / 4 :: (b1 % 4 * 16 + b2 / 16) :: (b2 % 16 * 4 + b3 / 64) :: b3 % 64 ::
      encodeToSextets rest

/-- Unpacking of base64 sextets back into bytes, four sextets at a time;
a dangling pair yields one byte, a dangling triple two, a single none. -/
def decodeQuads : List Nat → Bytes
  | [] => []
  | [_] => []
  | [s1, s2] => [s1 * 4 + s2 / 16]
  | [s1, s2, s3] => [s1 * 4 + s2 / 16, s2 % 16 * 16 + s3 / 4]
  | s1 :: s2 :: s3 :: s4 :: rest =>
    (s1 * 4 + s2 / 16) :: (s2 % 16 * 16 + s3 / 4) :: (s3 % 4 * 64 + s4) ::
      decodeQuads rest

/-- Function `base64url.encode` on a byte buffer: unpadded base64url text. -/
def base64urlEncode (buf : Bytes) : JStr :=
  (encodeToSextets buf).map b64UrlChar

/-- Node-style lenient base64 decoding of text to bytes: non-alphabet
characters (including all `=` padding) are ignored. -/
def nodeBase64Decode (s : JStr) : Bytes :=
  decodeQuads (s.filterMap b64CharVal)

/-- Function `trimEqualsChars` from `src/passport-sqrl/index.ts`: removes the
trailing run of `=` characters (the source walks `i` down from the end
while `s[i] === '='` and keeps `s.substring(0, i + 1)`). -/
def trimEqualsChars (s : JStr) : JStr :=
  (s.reverse.dropWhile (· = '=')).reverse

/-- Function `toSqrlBase64` from `src/passport-sqrl/index.ts`: base64url-encode the
buffer and trim any tail `=` characters. -/
def toSqrlBase64 (buf : Bytes) : JStr :=
  trimEqualsChars (base64urlEncode buf)

/-! ### Base64url round-trip lemmas -/

theorem b64CharVal_b64UrlChar {s : Nat} (h : s < 64) :
    b64CharVal (b64UrlChar s) = some s := by
  revert h
  revert s
  decide

theorem b64UrlChar_ne_eq {s : Nat} (h : s < 64) : b64UrlChar s ≠ '=' := by
  revert h
  revert s
  decide

theorem encodeToSextets_lt (B : Bytes) (hB : ∀ b ∈ B, b < 256) :
    ∀ s ∈ encodeToSextets B, s < 64 := by
  induction B using encodeToSextets.induct with
  | case1 => simp [encodeToSextets]
  | case2 b1 =>
    have h1 := hB b1 (by simp)
    simp only [encodeToSextets, List.mem_cons, List.not_mem_nil, or_false]
    rintro s (rfl | rfl) <;> omega
  | case3 b1 b2 =>
    have h1 := hB b1 (by simp)
    have h2 := hB b2 (by simp)
    simp only [encodeToSextets, List.mem_cons, List.not_mem_nil, or_false]
    rintro s (rfl | rfl | rfl) <;> omega
  | case4 b1 b2 b3 rest ih =>
    have h1 := hB b1 (by simp)
    have h2 := hB b2 (by simp)
    have h3 := hB b3 (by simp)
    have hrest : ∀ b ∈ rest, b < 256 := fun b hb => hB b (by simp [hb])
    simp only [encodeToSextets, List.mem_cons, List.not_mem_nil, or_false]
    rintro s (rfl | rfl | rfl | rfl | h)
    · omega
    · omega
    · omega
    · omega
    · exact ih hrest s h

theorem decodeQuads_encodeToSextets (B : Bytes) (hB : ∀ b ∈ B, b < 256) :
    decodeQuads (encodeToSextets B) = B := by
  induction B using encodeToSextets.induct with
  | case1 => rfl
  | case2 b1 =>
    have h1 := hB b1 (by simp)
    simp only [encodeToSextets, decodeQuads]
    congr 1
    omega
  | case3 b1 b2 =>
    have h1 := hB b1 (by simp)
    have h2 := hB b2 (by simp)
    simp only [encodeToSextets, decodeQuads]
    congr 1
    · omega
    · congr 1
      omega
  | case4 b1 b2 b3 rest ih =>
    have h1 := hB b1 (by simp)
    have h2 := hB b2 (by simp)
    have h3 := hB b3 (by simp)
    have hrest : ∀ b ∈ rest, b < 256 := fun b hb => hB b (by simp [hb])
    simp only [encodeToSextets, decodeQuads]
    rw [ih hrest]
    congr 1
    · omega
    · congr 1
      · omega
      · congr 1
        omega

theorem filterMap_b64CharVal_map (xs : List Nat) (h : ∀ s ∈ xs, s < 64) :
    (xs.map b64UrlChar).filterMap b64CharVal = xs := by
  induction xs with
  | nil => rfl
  | cons x xs ih =>
    have hx := h x (by simp)
    have hxs : ∀ s ∈ xs, s < 64 := fun s hs => h s (by simp [hs])
    simp [List.filterMap_cons, b64CharVal_b64UrlChar hx, ih hxs]

theorem eq_not_mem_base64urlEncode (B : Bytes) (hB : ∀ b ∈ B, b < 256) :
    '=' ∉ base64urlEncode B := by
  intro hmem
  unfold base64urlEncode at hmem
  rcases List.mem_map.mp hmem with ⟨s, hs, heq⟩
  exact b64UrlChar_ne_eq (encodeToSextets_lt B hB s hs) heq

theorem trimEqualsChars_eq_self {s : JStr} (h : '=' ∉ s) :
    trimEqualsChars s = s := by
  unfold trimEqualsChars
  have : s.reverse.dropWhile (· = '=') = s.reverse := by
    cases hr : s.reverse with
    | nil => simp
    | cons c cs =>
      have hc : c ∈ s.reverse := by simp [hr]
      rw [List.mem_reverse] at hc
      have : ¬(c = '=') := fun hcc => h (hcc ▸ hc)
      simp [List.dropWhile_cons, this]
  simp [this]

theorem filterMap_b64CharVal_replicate_eq (k : Nat) :
    (List.replicate k '=').filterMap b64CharVal = [] := by
  induction k with
  | zero => rfl
  | succ k ih => simp [List.replicate_succ, List.filterMap_cons, ih]; rfl

theorem toSqrlBase64_eq_encode (B : Bytes) (hB : ∀ b ∈ B, b < 256) :
    toSqrlBase64 B = base64urlEncode B :=
  trimEqualsChars_eq_self (eq_not_mem_base64urlEncode B hB)

/-- C6. For every byte string `B`, decoding the SQRL base64url encoding
of `B` yields `B` back; the encoder `toSqrlBase64` never emits an `=`
character; and the decoder accepts both padded and unpadded base64url
inputs, yielding the same bytes for either form. -/
theorem claim_C6 (B : Bytes) (hB : ∀ b ∈ B, b < 256) :
    nodeBase64Decode (toSqrlBase64 B) = B ∧
    '=' ∉ toSqrlBase64 B ∧
    ∀ k : Nat, nodeBase64Decode (toSqrlBase64 B ++ List.replicate k '=') =
      nodeBase64Decode (toSqrlBase64 B) := by
  have henc := toSqrlBase64_eq_encode B hB
  have hlt := encodeToSextets_lt B hB
  have hdec : nodeBase64Decode (toSqrlBase64 B) = B := by
    rw [henc]
    unfold nodeBase64Decode base64urlEncode
    rw [filterMap_b64CharVal_map _ hlt]
    exact decodeQuads_encodeToSextets B hB
  refine ⟨hdec, ?_, ?_⟩
  · rw [henc]
    exact eq_not_mem_base64urlEncode B hB
  · intro k
    unfold nodeBase64Decode
    rw [List.filterMap_append, filterMap_b64CharVal_replicate_eq, List.append_nil]

/-- Witness for C6 at the concrete buffer `[79, 170, 1, 255]`. -/
theorem claim_C6_witness :
    (∀ b ∈ [79, 170, 1, 255], b < 256) ∧
    nodeBase64Decode (toSqrlBase64 [79, 170, 1, 255]) = [79, 170, 1, 255] ∧
    '=' ∉ toSqrlBase64 [79, 170, 1, 255] ∧
    nodeBase64Decode (toSqrlBase64 [79, 170, 1, 255] ++ List.replicate 2 '=') =
      nodeBase64Decode (toSqrlBase64 [79, 170, 1, 255]) := by
  have h : ∀ b ∈ [79, 170, 1, 255], b < 256 := by decide
  have c := claim_C6 [79, 170, 1, 255] h
  exact ⟨h, c.1, c.2.1, c.2.2 2⟩

/-! ## UTF-8 transcoding

Models Node's `Buffer.from(s, 'utf8')` and `buffer.toString('utf8')`
(WHATWG decoding with U+FFFD replacement for invalid sequences). -/

/-- UTF-8 encoding of one character. -/
def utf8EncodeChar (c : Char) : Bytes :=
  let n := c.toNat
  if n < 0x80 then [n]
  else if n < 0x800 then [0xC0 + n / 64, 0x80 + n % 64]
  else if n < 0x10000 then [0xE0 + n / 4096, 0x80 + n / 64 % 64, 0x80 + n % 64]
  else [0xF0 + n / 262144, 0x80 + n / 4096 % 64, 0x80 + n / 64 % 64, 0x80 + n % 64]

/-- UTF-8 encoding of a string (`Buffer.from(s, 'utf8')`). -/
def utf8Encode (s : JStr) : Bytes :=
  (s.map utf8EncodeChar).flatten

/-- Admissible second-byte lower bound for a three-byte lead. -/
def cont3Lo (b : Nat) : Nat := if b = 0xE0 then 0xA0 else 0x80

/-- Admissible second-byte upper bound for a three-byte lead. -/
def cont3Hi (b : Nat) : Nat := if b = 0xED then 0x9F else 0xBF

/-- Admissible second-byte lower bound for a four-byte lead. -/
def cont4Lo (b : Nat) : Nat := if b = 0xF0 then 0x90 else 0x80

/-- Admissible second-byte upper bound for a four-byte lead. -/
def cont4Hi (b : Nat) : Nat := if b = 0xF4 then 0x8F else 0xBF

/-- Worker for lossy UTF-8 decoding, structurally recursive on a fuel
argument (one unit per decoded unit; the caller supplies the byte count,
which always suffices since every step consumes at least one byte). -/
def utf8DecodeGo : Nat → Bytes → JStr
  | _, [] => []
  | 0, _ :: _ => []
  | fuel + 1, b :: rest =>
    if b < 0x80 then Char.ofNat b :: utf8DecodeGo fuel rest
    else if 0xC2 ≤ b ∧ b ≤ 0xDF then
      match rest with
      | b2 :: rest2 =>
        if 0x80 ≤ b2 ∧ b2 ≤ 0xBF then
          Char.ofNat ((b - 0xC0) * 64 + (b2 - 0x80)) :: utf8DecodeGo fuel rest2
        else '�' :: utf8DecodeGo fuel rest
      | [] => ['�']
    else if 0xE0 ≤ b ∧ b ≤ 0xEF then
      match rest with
      | b2 :: b3 :: rest3 =>
        if cont3Lo b ≤ b2 ∧ b2 ≤ cont3Hi b ∧ 0x80 ≤ b3 ∧ b3 ≤ 0xBF then
          Char.ofNat ((b - 0xE0) * 4096 + (b2 - 0x80) * 64 + (b3 - 0x80)) ::
            utf8DecodeGo fuel rest3
        else '�' :: utf8DecodeGo fuel rest
      | _ => '�' :: utf8DecodeGo fuel rest
    else if 0xF0 ≤ b ∧ b ≤ 0xF4 then
      match rest with
      | b2 :: b3 :: b4 :: rest4 =>
        if cont4Lo b ≤ b2 ∧ b2 ≤ cont4Hi b ∧ 0x80 ≤ b3 ∧ b3 ≤ 0xBF ∧
            0x80 ≤ b4 ∧ b4 ≤ 0xBF then
          Char.ofNat ((b - 0xF0) * 262144 + (b2 - 0x80) * 4096 +
            (b3 - 0x80) * 64 + (b4 - 0x80)) :: utf8DecodeGo fuel rest4
        else '�' :: utf8DecodeGo fuel rest
      | _ => '�' :: utf8DecodeGo fuel rest
    else '�' :: utf8DecodeGo fuel rest

/-- Lossy UTF-8 decoding of bytes to a string (`buffer.toString('utf8')`):
invalid sequences produce U+FFFD replacement characters. -/
def utf8DecodeLossy (l : Bytes) : JStr :=
  utf8DecodeGo l.length l

/-- Function `base64url.decode`: reverse the base64url encoding, interpreting the
bytes as UTF-8 text. -/
def base64urlDecodeStr (s : JStr) : JStr :=
  utf8DecodeLossy (nodeBase64Decode s)

/-- Function `base64url.encode` on a string argument: UTF-8 encode, then base64url. -/
def base64urlEncodeStr (s : JStr) : JStr :=
  base64urlEncode (utf8Encode s)

/-! ## Envelope Codec: `BodyParser.parseCRLFSeparatedFields`
from `src/passport-sqrl/index.ts`. -/

/-- A JavaScript object used as a string-keyed map: keys are unique and in
insertion order. -/
abbrev Props := List (JStr × JStr)

/-- JavaScript `props[name] = val`: overwrites in place or appends. -/
def objSet : Props → JStr → JStr → Props
  | [], k, v => [(k, v)]
  | (k', v') :: rest, k, v =>
    if k' = k then (k', v) :: rest else (k', v') :: objSet rest k v

/-- JavaScript `props[name]` read (`undefined` when absent). -/
def getProp (m : Props) (k : JStr) : Option JStr :=
  (m.find? (fun p => p.1 = k)).map (·.2)

/-- The body of the `lines.forEach` loop in `parseCRLFSeparatedFields`:
trim the line, skip it if empty, locate the first `=` (error when absent
or in position 0), and assign `props[name] = value`. -/
def lineStep (props : Props) (line : JStr) : Except JStr Props :=
  let t := jsTrim line
  if t.length = 0 then .ok props
  else
    let eqIndex : Int :=
      match t.findIdx? (fun c => c = '=') with
      | none => -1
      | some i => i
    if eqIndex < 1 then
      .error ("Failure parsing response line - no equal sign found in: ".toList ++ t)
    else
      .ok (objSet props (t.take eqIndex.toNat) (t.drop (eqIndex.toNat + 1)))

/-- Function `BodyParser.parseCRLFSeparatedFields`: split on CRLF and process each
line; a thrown `Error` aborts the loop. -/
def parseCRLFSeparatedFields (preSplitLines : JStr) : Except JStr Props :=
  (splitCRLF preSplitLines).foldlM lineStep []

/-- Function `BodyParser.parseBase64CRLFSeparatedFields`: reverse base64url
encoding, then parse the CRLF-separated fields. -/
def parseBase64CRLFSeparatedFields (base64Props : JStr) : Except JStr Props :=
  parseCRLFSeparatedFields (base64urlDecodeStr base64Props)

/-! ### Envelope Codec lemmas -/

theorem findIdx?_eq_append (name val : JStr) (h : '=' ∉ name) :
    (name ++ '=' :: val).findIdx? (fun c => c = '=') = some name.length := by
  induction name with
  | nil => simp
  | cons c cs ih =>
    have hc : ¬(c = '=') := fun hcc => h (by simp [hcc])
    have hcs : '=' ∉ cs := fun hm => h (by simp [hm])
    simp [List.findIdx?_cons, hc, ih hcs]

theorem findIdx?_eq_none_of_not_mem {t : JStr} (h : '=' ∉ t) :
    t.findIdx? (fun c => c = '=') = none := by
  induction t with
  | nil => simp
  | cons c cs ih =>
    have hc : ¬(c = '=') := fun hcc => h (by simp [hcc])
    have hcs : '=' ∉ cs := fun hm => h (by simp [hm])
    simp [List.findIdx?_cons, hc, ih hcs]

theorem getProp_objSet_self (m : Props) (k v : JStr) :
    getProp (objSet m k v) k = some v := by
  induction m with
  | nil => simp [objSet, getProp]
  | cons p m ih =>
    obtain ⟨k', v'⟩ := p
    by_cases h : k' = k
    · subst h
      simp [objSet, getProp]
    · simp only [objSet, if_neg h]
      simpa [getProp, List.find?_cons, h] using ih

theorem getProp_objSet_ne (m : Props) (k v k' : JStr) (h : k' ≠ k) :
    getProp (objSet m k v) k' = getProp m k' := by
  induction m with
  | nil =>
    have hk : ¬(k = k') := fun hh => h hh.symm
    simp [objSet, getProp, List.find?_cons, hk]
  | cons p m ih =>
    obtain ⟨k0, v0⟩ := p
    by_cases h0 : k0 = k
    · subst h0
      have : ¬(k0 = k') := fun hh => h (hh.symm)
      simp [objSet, getProp, List.find?_cons, this]
    · simp only [objSet, if_neg h0]
      by_cases h1 : k0 = k'
      · subst h1
        simp [getProp, List.find?_cons]
      · simpa [getProp, List.find?_cons, h1] using ih

theorem dropWhile_eq_nil_of_all {p : Char → Bool} {l : JStr} (h : ∀ c ∈ l, p c) :
    l.dropWhile p = [] := by
  induction l with
  | nil => rfl
  | cons c cs ih =>
      simp only [List.dropWhile_cons, h c (by simp)]
      exact ih (fun x hx => h x (by simp [hx]))

theorem jsTrim_all_ws {line : JStr} (h : ∀ c ∈ line, isJsWhitespace c) :
    jsTrim line = [] := by
  unfold jsTrim
  rw [dropWhile_eq_nil_of_all h]
  simp

theorem jsTrim_pad (x pre post : JStr) (hpre : ∀ c ∈ pre, isJsWhitespace c)
    (hpost : ∀ c ∈ post, isJsWhitespace c) :
    jsTrim (pre ++ x ++ post) = jsTrim x := by
  unfold jsTrim
  rw [List.append_assoc, List.dropWhile_append_of_pos hpre]
  rw [List.dropWhile_append]
  by_cases hx : x.dropWhile isJsWhitespace = []
  · simp only [hx, List.isEmpty_nil]
    rw [dropWhile_eq_nil_of_all hpost]
    simp
  · have : (x.dropWhile isJsWhitespace).isEmpty = false := by
      simpa [List.isEmpty_iff] using hx
    simp only [this, Bool.false_eq_true, if_false]
    rw [List.reverse_append,
      List.dropWhile_append_of_pos (by simpa using hpost)]

theorem lineStep_congr_trim (m : Props) (l1 l2 : JStr) (h : jsTrim l1 = jsTrim l2) :
    lineStep m l1 = lineStep m l2 := by
  unfold lineStep
  rw [h]

/-- C8. For every CRLF-separated name-value block, the parser maps each
line to a pair whose name is the substring up to the first `=` and whose
value is everything after it (values may contain `=`); blank lines are
skipped without error; and any non-blank line containing no `=`, or
starting with `=`, causes a parse error. -/
theorem claim_C8 (m : Props) (line s : JStr) :
    parseCRLFSeparatedFields s = (splitCRLF s).foldlM lineStep [] ∧
    (jsTrim line = [] → lineStep m line = Except.ok m) ∧
    (∀ name val : JStr, '=' ∉ name → name ≠ [] →
      jsTrim line = name ++ '=' :: val →
      lineStep m line = Except.ok (objSet m name val)) ∧
    (jsTrim line ≠ [] → ('=' ∉ jsTrim line ∨ (jsTrim line).head? = some '=') →
      ∃ msg, lineStep m line = Except.error msg) := by
  refine ⟨rfl, ?_, ?_, ?_⟩
  · intro h
    simp [lineStep, h]
  · intro name val hne hnn ht
    have hlen : (jsTrim line).length ≠ 0 := by
      rw [ht]
      simp
    have hidx : (jsTrim line).findIdx? (fun c => c = '=') = some name.length := by
      rw [ht]
      exact findIdx?_eq_append name val hne
    have hpos : 1 ≤ name.length := by
      cases name with
      | nil => exact absurd rfl hnn
      | cons _ _ => simp
    have htake : (jsTrim line).take name.length = name := by
      rw [ht]
      exact List.take_left name ('=' :: val)
    have hdrop : (jsTrim line).drop (name.length + 1) = val := by
      rw [ht]
      have hsplit : name ++ '=' :: val = (name ++ ['=']) ++ val := by simp
      rw [hsplit]
      exact List.drop_left' (by simp)
    have hnotlt : ¬((name.length : Int) < 1) := by
      omega
    simp only [lineStep, hidx, if_neg hlen, if_neg hnotlt, Int.toNat_ofNat,
      htake, hdrop]
  · intro hnn hcase
    rcases hcase with hnomem | hhead
    · refine ⟨"Failure parsing response line - no equal sign found in: ".toList ++
        jsTrim line, ?_⟩
      unfold lineStep
      rw [if_neg (by simpa [List.length_eq_zero] using hnn),
        findIdx?_eq_none_of_not_mem hnomem]
      simp
    · obtain ⟨t', ht'⟩ : ∃ t', jsTrim line = '=' :: t' := by
        cases h : jsTrim line with
        | nil => simp [h] at hhead
        | cons c cs =>
          rw [h] at hhead
          simp at hhead
          exact ⟨cs, by rw [hhead]⟩
      refine ⟨"Failure parsing response line - no equal sign found in: ".toList ++
        jsTrim line, ?_⟩
      unfold lineStep
      rw [if_neg (by simp [ht'])]
      rw [show (jsTrim line).findIdx? (fun c => c = '=') = some 0 by
        rw [ht']
        simp [List.findIdx?_cons]]
      simp

/-- Witness for C8: a whitespace line is skipped, `cmd=query` parses to the
pair `(cmd, query)`, and a line with no `=` errors. -/
theorem claim_C8_witness :
    lineStep [] "  ".toList = Except.ok [] ∧
    lineStep [] "cmd=query".toList =
      Except.ok (objSet [] "cmd".toList "query".toList) ∧
    ∃ msg, lineStep [] "noequals".toList = Except.error msg := by
  refine ⟨?_, ?_, ?_⟩
  · exact (claim_C8 [] "  ".toList []).2.1 (by decide)
  · exact (claim_C8 [] "cmd=query".toList []).2.2.1 "cmd".toList "query".toList
      (by decide) (by decide) (by decide)
  · exact (claim_C8 [] "noequals".toList []).2.2.2 (by decide) (Or.inl (by decide))

/-- C10 (implicit). When the same field name occurs on more than one
line of a CRLF name-value block, the parser keeps the value from the last
such line (later lines overwrite earlier ones); surrounding whitespace on
each line is trimmed before the name/value split; and lines consisting
only of whitespace are ignored like blank lines. -/
theorem claim_C10 (m : Props) (k v line : JStr) :
    getProp (objSet m k v) k = some v ∧
    (∀ k' : JStr, k' ≠ k → getProp (objSet m k v) k' = getProp m k') ∧
    (∀ pre post : JStr, (∀ c ∈ pre, isJsWhitespace c) →
      (∀ c ∈ post, isJsWhitespace c) →
      lineStep m (pre ++ line ++ post) = lineStep m line) ∧
    ((∀ c ∈ line, isJsWhitespace c) → lineStep m line = Except.ok m) ∧
    parseCRLFSeparatedFields ("a=1\r\n  a=2  \r\n \t \r\n".toList) =
      Except.ok [("a".toList, "2".toList)] := by
  refine ⟨getProp_objSet_self m k v, fun k' h => getProp_objSet_ne m k v k' h,
    ?_, ?_, ?_⟩
  · intro pre post hpre hpost
    exact lineStep_congr_trim m _ _ (jsTrim_pad line pre post hpre hpost)
  · intro hws
    simp [lineStep, jsTrim_all_ws hws]
  · rfl

/-- Witness for C10 at concrete keys, lines and the duplicate-key block. -/
theorem claim_C10_witness :
    getProp (objSet [] "a".toList "2".toList) "a".toList = some "2".toList ∧
    getProp (objSet [] "a".toList "2".toList) "b".toList = getProp [] "b".toList ∧
    lineStep [] (" ".toList ++ "x=7".toList ++ " ".toList) =
      lineStep [] "x=7".toList ∧
    lineStep [] " \t ".toList = Except.ok [] ∧
    parseCRLFSeparatedFields ("a=1\r\n  a=2  \r\n \t \r\n".toList) =
      Except.ok [("a".toList, "2".toList)] := by
  refine ⟨(claim_C10 [] "a".toList "2".toList []).1,
    (claim_C10 [] "a".toList "2".toList []).2.1 "b".toList (by decide),
    (claim_C10 [] "a".toList "2".toList "x=7".toList).2.2.1 " ".toList " ".toList
      (by decide) (by decide),
    (claim_C10 [] "a".toList "2".toList " \t ".toList).2.2.2.1 (by decide),
    (claim_C10 [] "a".toList "2".toList []).2.2.2.2⟩

/-! ## URL Factory: `SqrlUrlFactory` from `src/passport-sqrl/index.ts`. -/

/-- A JavaScript `string | Buffer` value, as used for nuts. -/
inductive NutVal where
  | str (s : JStr)
  | buf (b : Bytes)
deriving DecidableEq

namespace SqrlUrlFactory

/-- Function `SqrlUrlFactory.nutToString`: a `Buffer` nut is rendered with
`toSqrlBase64`; a string nut is used as-is. -/
def nutToString : NutVal → JStr
  | .str s => s
  | .buf b => toSqrlBase64 b

/-- The `pathString` mutations inside `SqrlUrlFactory.create`: default a
missing path to the empty string, add a leading `/` to a non-empty path
lacking one, then strip one trailing `?`. -/
def createPath (pathString : Option JStr) : JStr :=
  let p0 : JStr := pathString.getD []
  let p1 : JStr :=
    if p0.length > 0 ∧ p0.head? ≠ some '/' then '/' :: p0 else p0
  if p1.getLast? = some '?' then p1.dropLast else p1

/-- Function `SqrlUrlFactory.create` (static): composes
`sqrl://domain[:port][path]?nut=nut[&x=n]`, mirroring the source's
sequence of `pathString` mutations and JavaScript truthiness checks. -/
def create (domain : JStr) (serverNut : NutVal) (port : Option Nat)
    (pathString : Option JStr) (domainExtension : Option Int) : JStr :=
  let portPart : JStr :=
    match port with
    | some p => if p ≠ 0 then ':' :: natToDec p else []
    | none => []
  let p2 : JStr := createPath pathString
  let domainExt : JStr :=
    match domainExtension with
    | some d =>
      if p2.length > 0 ∧ d ≠ 0 ∧ d > 0 then
        "&x=".toList ++ natToDec (min d (p2.length : Int)).toNat
      else []
    | none => []
  "sqrl://".toList ++ domain ++ portPart ++ p2 ++ "?nut=".toList ++
    nutToString serverNut ++ domainExt

end SqrlUrlFactory

/-- Path normalization as the specification words it: the path starts
with `/` (added when missing) and one trailing `?` of the caller-supplied
path is stripped. -/
def specNormalizePath (pathString : Option JStr) : JStr :=
  let q := pathString.getD []
  let q1 : JStr :=
    if q = [] then [] else if q.head? = some '/' then q else '/' :: q
  if q1.getLast? = some '?' then q1.dropLast else q1

/-- The URL shape claimed by the specification:
`sqrl://domain[:port][path]?nut=nut[&x=min(ext, len path)]`, the `&x=`
suffix appearing exactly when the normalized path is non-empty and a
positive domain-extension length is supplied (a port supplied as `0` is
omitted, matching JavaScript truthiness). -/
def specSqrlUrl (domain nut : JStr) (port : Option Nat) (path : JStr)
    (ext : Option Int) : JStr :=
  "sqrl://".toList ++ domain ++
  (match port with
   | some p => if p ≠ 0 then ':' :: natToDec p else []
   | none => []) ++
  path ++ "?nut=".toList ++ nut ++
  (match ext with
   | some d =>
     if path ≠ [] ∧ d > 0 then
       "&x=".toList ++ natToDec (min d (path.length : Int)).toNat
     else []
   | none => [])

theorem create_path_eq (pathString : Option JStr) :
    SqrlUrlFactory.createPath pathString = specNormalizePath pathString := by
  unfold SqrlUrlFactory.createPath specNormalizePath
  cases pathString with
  | none => simp
  | some q =>
    cases q with
    | nil => simp
    | cons c cs =>
      by_cases hc : c = '/'
      · subst hc
        simp
      · simp [hc, List.head?]

/-- C7 counterexample. With path `abc` present and a domain-extension
length supplied as `0`, the produced URL carries no `&x=` parameter, while
the claim requires `&x=<min(0, 4)>` to be appended whenever a non-empty
path exists and a domain-extension length is supplied. -/
theorem claim_C7_counterexample :
    SqrlUrlFactory.create "domain.com".toList (NutVal.str "NUT".toList) none
      (some "abc".toList) (some 0) = "sqrl://domain.com/abc?nut=NUT".toList ∧
    "sqrl://domain.com/abc?nut=NUT".toList ≠
      "sqrl://domain.com/abc?nut=NUT&x=0".toList := by
  exact ⟨by decide, by decide⟩

theorem specNormalizePath_cons (c : Char) (cs : JStr) :
    ∃ t : JStr, specNormalizePath (some (c :: cs)) = '/' :: t := by
  unfold specNormalizePath
  simp only [Option.getD_some]
  have hq1 : (if (c :: cs : JStr) = [] then ([] : JStr)
      else if (c :: cs : JStr).head? = some '/' then c :: cs else '/' :: c :: cs) =
      '/' :: (if c = '/' then cs else c :: cs) := by
    by_cases hc : c = '/'
    · subst hc
      simp
    · simp [hc, List.head?]
  rw [hq1]
  cases hcs : (if c = '/' then cs else c :: cs) with
  | nil =>
    exact ⟨[], by decide⟩
  | cons a as =>
    by_cases hl : ('/' :: a :: as : JStr).getLast? = some '?'
    · rw [if_pos hl]
      exact ⟨(a :: as).dropLast, by simp⟩
    · rw [if_neg hl]
      exact ⟨a :: as, rfl⟩

/-- C7 (amended). For every domain, optional port, caller-supplied
path, domain-extension length and nut, `SqrlUrlFactory.create` produces a
URL of shape `sqrl://domain[:port][path]?nut=<nut>[&x=<n>]` where the path
is normalized to start with `/`, one trailing `?` of the caller path is
stripped, and the `&x=` parameter is appended with value
`min(domainExtension, length of normalized path)` exactly when a non-empty
path exists and a *positive* domain-extension length is supplied (a port
supplied as `0` is omitted, matching JavaScript truthiness). -/
theorem claim_C7_amended (domain : JStr) (serverNut : NutVal)
    (port : Option Nat) (pathString : Option JStr) (ext : Option Int) :
    SqrlUrlFactory.create domain serverNut port pathString ext =
      specSqrlUrl domain (SqrlUrlFactory.nutToString serverNut) port
        (specNormalizePath pathString) ext ∧
    (specNormalizePath pathString = [] ∨
      (specNormalizePath pathString).head? = some '/') ∧
    (specNormalizePath pathString ≠ [] ↔
      ∃ s, pathString = some s ∧ s ≠ []) := by
  refine ⟨?_, ?_, ?_⟩
  · simp only [SqrlUrlFactory.create, specSqrlUrl, create_path_eq]
    cases ext with
    | none => rfl
    | some d =>
      by_cases hp : specNormalizePath pathString = []
      · simp [hp]
      · have hlen : (specNormalizePath pathString).length > 0 :=
          List.length_pos.mpr hp
        by_cases hd : d > 0
        · have hdne : d ≠ 0 := by omega
          simp [hp, hd, hdne, hlen]
        · simp [hp, hd, hlen]
  · cases pathString with
    | none => exact Or.inl (by rfl)
    | some q =>
      cases q with
      | nil => exact Or.inl (by rfl)
      | cons c cs =>
        obtain ⟨t, ht⟩ := specNormalizePath_cons c cs
        exact Or.inr (by rw [ht]; rfl)
  · constructor
    · intro hne
      cases pathString with
      | none => exact absurd rfl hne
      | some q =>
        cases q with
        | nil => exact absurd rfl hne
        | cons c cs => exact ⟨c :: cs, rfl, by simp⟩
    · rintro ⟨s, rfl, hs⟩
      cases s with
      | nil => exact absurd rfl hs
      | cons c cs =>
        obtain ⟨t, ht⟩ := specNormalizePath_cons c cs
        rw [ht]
        simp

/-! ## Request Validator: `BodyParser.parseAndValidateRequestFields`
from `src/passport-sqrl/index.ts`. -/

/-- The POST body fields sent by a SQRL client (class `RequestPostBody`);
absent fields are `none`. The unused `urs` field is omitted. -/
structure ReqParams where
  client : Option JStr := none
  server : Option JStr := none
  ids : Option JStr := none
  pids : Option JStr := none
deriving DecidableEq

/-- A thrown JavaScript error: either a `ClientInputError` (which carries
`httpStatusCode`, default 400) or a bare `Error` (as thrown by
`parseCRLFSeparatedFields`), whose `httpStatusCode` is `undefined`. -/
inductive SqrlError where
  | client (message : JStr) (httpStatusCode : Nat)
  | plain (message : JStr)
deriving DecidableEq

/-- JavaScript `err.toString()` for an `Error` instance: `"Error: " + message`. -/
def errToString : SqrlError → JStr
  | .client m _ => "Error: ".toList ++ m
  | .plain m => "Error: ".toList ++ m

/-- JavaScript `err.httpStatusCode`: `undefined` on a bare `Error`. -/
def errHttpStatusCode : SqrlError → Option Nat
  | .client _ st => some st
  | .plain _ => none

/-- Class `ClientRequestInfo`: fields decoded from the client envelope.
`protocolVersion` is `none` when `Number(ver)` is not a natural number
(the engine only ever compares it against `1`). The unused
`serverAskResponseSelection` field is omitted. -/
structure ClientRequestInfo where
  protocolVersion : Option Nat := none
  sqrlCommand : Option JStr := none
  nut : Option JStr := none
  primaryIdentityPublicKey : Option JStr := none
  previousIdentityPublicKey : Option JStr := none
  serverUnlockPublicKey : Option JStr := none
  serverVerifyUnlockPublicKey : Option JStr := none
  indexSecret : Option JStr := none
  previousIndexSecret : Option JStr := none
  useSqrlIdentityOnly : Bool := false
  hardLockSqrlUse : Bool := false
  clientProvidedSession : Bool := false
  returnSessionUnlockKey : Bool := false
  nextNut : Option JStr := none
  nextUrl : Option JStr := none
deriving DecidableEq

/-- JavaScript `Number(x)` restricted to the shapes the engine compares
against `1`: `undefined` and non-natural-number strings give `none`
(NaN-like, never equal to `some 1`); the empty/whitespace string gives 0;
decimal digit strings give their value. -/
def jsNumber : Option JStr → Option Nat
  | none => none
  | some s =>
    let t := jsTrim s
    if t = [] then some 0
    else if t.all (fun c => '0' ≤ c ∧ c ≤ '9') then
      some (t.foldl (fun acc c => acc * 10 + (c.toNat - 48)) 0)
    else none

/-- JavaScript `String.prototype.startsWith`. -/
def jsStartsWith : JStr → JStr → Bool
  | _, [] => true
  | [], _ :: _ => false
  | c :: cs, p :: ps => c = p && jsStartsWith cs ps

/-- Models `urlLib.parse(s, true).query.nut ? ...toString() : undefined`:
the query string is everything between the first `?` and a following `#`;
`&`-separated components split at their first `=` (missing `=` means empty
value); repeated `nut` keys become an array whose `toString()` joins with
commas; a falsy result (missing key, or empty single value) yields
`undefined`. Percent-decoding is not modelled (nut values are base64url).
-/
def urlQueryNut (s : JStr) : Option JStr :=
  match s.findIdx? (fun c => c = '?') with
  | none => none
  | some i =>
    let qs := (s.drop (i + 1)).takeWhile (fun c => c ≠ '#')
    let vals := (splitChar '&' qs).filterMap (fun p =>
      let kv : JStr × JStr :=
        match p.findIdx? (fun c => c = '=') with
        | none => (p, [])
        | some j => (p.take j, p.drop (j + 1))
      if kv.1 = "nut".toList then some kv.2 else none)
    match vals with
    | [] => none
    | v :: vs =>
      let joined := List.intercalate ",".toList (v :: vs)
      if joined = [] then none else some joined

/-- Extraction of the nut from the decoded `server=` field (the tail of
`parseAndValidateRequestFields`): a string starting `sqrl` is parsed as a
URL, anything else as a base64url CRLF name-value block (whose parse
errors propagate as bare `Error`s). -/
def extractServerNut (server : JStr) : Except SqrlError (Option JStr) :=
  let serverDecoded := base64urlDecodeStr server
  if jsStartsWith serverDecoded "sqrl".toList then
    .ok (urlQueryNut serverDecoded)
  else
    match parseBase64CRLFSeparatedFields server with
    | .error e => .error (.plain e)
    | .ok serverProps => .ok (getProp serverProps "nut".toList)

/-- One arm of the `opt` flag switch; an unknown flag is fatal. -/
def applyOpt (ri : ClientRequestInfo) (opt : JStr) :
    Except SqrlError ClientRequestInfo :=
  if opt = "sqrlonly".toList then .ok { ri with useSqrlIdentityOnly := true }
  else if opt = "hardlock".toList then .ok { ri with hardLockSqrlUse := true }
  else if opt = "cps".toList then .ok { ri with clientProvidedSession := true }
  else if opt = "suk".toList then .ok { ri with returnSessionUnlockKey := true }
  else .error (.client ("Unknown SQRL client option ".toList ++ opt) 400)

/-- The `opt` processing of `parseAndValidateRequestFields`: when the
`opt` field is truthy, fold the `~`-separated flags over the request. -/
def applyOpts (ri : ClientRequestInfo) (optField : Option JStr) :
    Except SqrlError ClientRequestInfo :=
  if jsTruthy optField then (splitChar '~' (jsStr optField)).foldlM applyOpt ri
  else .ok ri

/-- The Ed25519 verification oracle `ed25519.Verify(message, signature,
publicKey)` from the native `ed25519` dependency. -/
abbrev VerifyFn := Bytes → Bytes → Bytes → Bool

/-- Function `BodyParser.parseAndValidateRequestFields`: require `client`, `server`
and `ids`, decode the client block, require `idk`, verify the `ids`
signature over the still-encoded `client + server` (and `pids` against
`pidk` when the latter is present), extract the nut from `server`, and
fold the `opt` flags. -/
def parseAndValidateRequestFields (verify : VerifyFn)
    (params : Option ReqParams) : Except SqrlError ClientRequestInfo :=
  match params with
  | none => .error (.client "Body is required".toList 400)
  | some p =>
    if ¬ jsTruthy p.client then
      .error (.client "Client field is required".toList 400)
    else if ¬ jsTruthy p.server then
      .error (.client "Server field is required".toList 400)
    else
      match parseBase64CRLFSeparatedFields (jsStr p.client) with
      | .error e => .error (.plain e)
      | .ok clientProps =>
        let requestInfo : ClientRequestInfo := {
          protocolVersion := jsNumber (getProp clientProps "ver".toList)
          sqrlCommand := getProp clientProps "cmd".toList
          primaryIdentityPublicKey := getProp clientProps "idk".toList
          previousIdentityPublicKey := getProp clientProps "pidk".toList
          serverUnlockPublicKey := getProp clientProps "suk".toList
          serverVerifyUnlockPublicKey := getProp clientProps "vuk".toList
          indexSecret := getProp clientProps "ins".toList
          previousIndexSecret := getProp clientProps "pins".toList }
        if ¬ jsTruthy requestInfo.primaryIdentityPublicKey then
          .error (.client
            "Missing primary identity public key field in SQRL request".toList 400)
        else if ¬ jsTruthy p.ids then
          .error (.client
            "Missing ids= primary key signature field in SQRL request".toList 400)
        else
          let clientServer := utf8Encode (jsStr p.client ++ jsStr p.server)
          let primaryKeySignature := nodeBase64Decode (jsStr p.ids)
          let primaryPublicKey :=
            nodeBase64Decode (jsStr requestInfo.primaryIdentityPublicKey)
          if ¬ verify clientServer primaryKeySignature primaryPublicKey then
            .error (.client "Primary public key did not verify correctly".toList 400)
          else
            let prevCheck : Except SqrlError Unit :=
              if jsTruthy requestInfo.previousIdentityPublicKey then
                if ¬ jsTruthy p.pids then
                  .error (.client
                    ("Missing pids= previous key signature field where the " ++
                      "pidk= previous public key is specified").toList 400)
                else if ¬ verify clientServer (nodeBase64Decode (jsStr p.pids))
                    (nodeBase64Decode (jsStr requestInfo.previousIdentityPublicKey)) then
                  .error (.client
                    "Previous public key did not verify correctly".toList 400)
                else .ok ()
              else .ok ()
            match prevCheck with
            | .error e => .error e
            | .ok _ =>
              match extractServerNut (jsStr p.server) with
              | .error e => .error e
              | .ok nutVal =>
                let requestInfo2 := { requestInfo with nut := nutVal }
                if ¬ jsTruthy requestInfo2.nut then
                  .error (.client
                    ("server= info from client is not either a QR-code URL " ++
                      "with nut= query param or a server response with nut= " ++
                      "field").toList 400)
                else applyOpts requestInfo2 (getProp clientProps "opt".toList)

/-! ## Protocol Engine: `SQRLExpress` from `src/passport-sqrl/index.ts`. -/

namespace TIFFlags

/-- Flag 0x01: identity matched by the primary/current key. -/
def CurrentIDMatch : Nat := 0x01

/-- Flag 0x02: identity matched by the deprecated/previous key. -/
def PreviousIDMatch : Nat := 0x02

/-- Flag 0x04: request IP matches the login-page IP. -/
def IPAddressesMatch : Nat := 0x04

/-- Flag 0x08: the SQRL profile was marked disabled. -/
def IDDisabled : Nat := 0x08

/-- Flag 0x10: unknown or unsupported verb. -/
def FunctionNotSupported : Nat := 0x10

/-- Flag 0x20: internal server error; the client should reissue its request. -/
def TransientError : Nat := 0x20

/-- Flag 0x40: the command failed. -/
def CommandFailed : Nat := 0x40

/-- Flag 0x80: the failure came from a malformed client request. -/
def ClientFailure : Nat := 0x80

/-- Flag 0x100: SQRL identity did not match the ambient session identity. -/
def BadIDAssociation : Nat := 0x100

end TIFFlags

/-- Class `UrlAndNut`: a SQRL URL with its nut in raw and string form. -/
structure UrlAndNut where
  url : JStr
  nut : NutVal
  nutString : JStr
deriving DecidableEq

/-- Class `NutInfo`: stored information about a nut value. -/
structure NutInfo where
  nut : Option JStr := none
  originalLoginNut : Option JStr := none
deriving DecidableEq

/-- Class `AuthCompletionInfo`: the outcome of an identity-store
operation. The opaque `user` record is modelled by an optional string
reference. -/
structure AuthCompletionInfo where
  user : Option JStr := none
  tifValues : Nat := 0
  sessionUnlockKey : Option JStr := none
deriving DecidableEq

/-- The `ISQRLIdentityStorage` interface, modelled as explicit state
passing over a storage-state type `σ`: each asynchronous operation maps a
pre-state to a result and a post-state. -/
structure ISQRLIdentityStorage (σ : Type) where
  nutIssuedToClientAsync : σ → UrlAndNut → Option JStr → σ
  getNutInfoAsync : σ → JStr → Option NutInfo × σ
  queryAsync : σ → ClientRequestInfo → NutInfo → AuthCompletionInfo × σ
  identAsync : σ → ClientRequestInfo → NutInfo → AuthCompletionInfo × σ
  disableAsync : σ → ClientRequestInfo → NutInfo → AuthCompletionInfo × σ
  enableAsync : σ → ClientRequestInfo → NutInfo → AuthCompletionInfo × σ
  removeAsync : σ → ClientRequestInfo → NutInfo → AuthCompletionInfo × σ

/-- Trace events recording the engine's interactions with nut generation
and the identity storage, in program order. -/
inductive StorageEvent where
  | lookup (nut : JStr) (result : Option NutInfo)
  | mint (nutString : JStr)
  | register (nutString : JStr) (originalLoginNut : Option JStr)
  | command (cmd : Option JStr)
deriving DecidableEq

/-- The configuration fields of `SQRLStrategyConfig` consumed by the
engine paths verified here. -/
structure SQRLStrategyConfig where
  urlPath : JStr
  clientLoginSuccessUrl : Option JStr := none
  clientCancelAuthUrl : Option JStr := none
deriving DecidableEq

/-- Class `AuthenticateAsyncResult`. -/
structure AuthenticateAsyncResult where
  user : Option JStr := none
  body : Option JStr := none
  httpResponseCode : Nat := 500
deriving DecidableEq

/-- Function `SQRLExpress.authCompletionToResponseBody`: compose the CRLF response
lines (`ver`, `nut`, `tif` in lowercase hex, `qry`, then the conditional
`url=`, `suk=`, `can=` lines), join with CRLF plus a trailing CRLF, and
base64url-encode. -/
def authCompletionToResponseBody (cfg : SQRLStrategyConfig)
    (clientRequestInfo : ClientRequestInfo) (authInfo : AuthCompletionInfo) :
    JStr :=
  let serverLines : List JStr :=
    ["ver=1".toList,
     "nut=".toList ++ jsStr clientRequestInfo.nextNut,
     "tif=".toList ++ natToHex authInfo.tifValues,
     "qry=".toList ++ cfg.urlPath ++ "?nut=".toList ++
       jsStr clientRequestInfo.nextNut] ++
    (if clientRequestInfo.clientProvidedSession ∧
        clientRequestInfo.sqrlCommand ≠ some "query".toList then
      ["url=".toList ++ jsStr cfg.clientLoginSuccessUrl] else []) ++
    (if clientRequestInfo.returnSessionUnlockKey ∧
        jsTruthy authInfo.sessionUnlockKey then
      ["suk=".toList ++ jsStr authInfo.sessionUnlockKey] else []) ++
    (if jsTruthy cfg.clientCancelAuthUrl then
      ["can=".toList ++ jsStr cfg.clientCancelAuthUrl] else [])
  base64urlEncodeStr (joinCRLF serverLines ++ "\r\n".toList)

/-- Function `SQRLExpress.authenticateAsync`: validate the request, require
protocol version 1, look up the presented nut, mint and register a fresh
follow-up nut, then dispatch the command into the identity storage.
Returns the result (or thrown error), the post-state of the storage, and
the event trace. The fresh nut produced by the configured generator is
passed in as `nextNutVal`. -/
def authenticateAsync {σ : Type} (storage : ISQRLIdentityStorage σ)
    (verify : VerifyFn) (cfg : SQRLStrategyConfig) (nextNutVal : NutVal)
    (s : σ) (params : Option ReqParams) :
    Except SqrlError AuthenticateAsyncResult × σ × List StorageEvent :=
  match parseAndValidateRequestFields verify params with
  | .error e => (.error e, s, [])
  | .ok clientRequestInfo =>
    if clientRequestInfo.protocolVersion ≠ some 1 then
      (.error (.client "This server only handles SQRL protocol revision 1".toList 400),
        s, [])
    else
      let lookupState : Option NutInfo × σ × List StorageEvent :=
        match clientRequestInfo.nut with
        | some n =>
          let r := storage.getNutInfoAsync s n
          (r.1, r.2, [StorageEvent.lookup n r.1])
        | none => (none, s, [])
      let nutInfoRes := lookupState.1
      let s1 := lookupState.2.1
      let nextNutStr := SqrlUrlFactory.nutToString nextNutVal
      let nextUrl := cfg.urlPath ++ "?nut=".toList ++ nextNutStr
      let urlAndNut : UrlAndNut := ⟨nextUrl, nextNutVal, nextNutStr⟩
      let ev2 := lookupState.2.2 ++ [StorageEvent.mint nextNutStr]
      match nutInfoRes with
      | none =>
        (.error (.client "Client presented unknown nut value".toList 400), s1, ev2)
      | some nutInfo =>
        let origin := jsOrOpt nutInfo.originalLoginNut nutInfo.nut
        let s2 := storage.nutIssuedToClientAsync s1 urlAndNut origin
        let ev3 := ev2 ++ [StorageEvent.register nextNutStr origin]
        let cri2 := { clientRequestInfo with
          nextNut := some nextNutStr, nextUrl := some nextUrl }
        let finish := fun (op : σ → ClientRequestInfo → NutInfo →
            AuthCompletionInfo × σ) =>
          let r := op s2 cri2 nutInfo
          (Except.ok {
            user := r.1.user
            body := some (authCompletionToResponseBody cfg cri2 r.1)
            httpResponseCode := 200 : AuthenticateAsyncResult },
            r.2, ev3 ++ [StorageEvent.command cri2.sqrlCommand])
        if cri2.sqrlCommand = some "query".toList then
          finish storage.queryAsync
        else if cri2.sqrlCommand = some "ident".toList then
          finish storage.identAsync
        else if cri2.sqrlCommand = some "disable".toList then
          finish storage.disableAsync
        else if cri2.sqrlCommand = some "enable".toList then
          finish storage.enableAsync
        else if cri2.sqrlCommand = some "remove".toList then
          finish storage.removeAsync
        else
          (.error (.client ("Unknown SQRL command ".toList ++
            jsStr cri2.sqrlCommand) 400), s2, ev3)

/-- An HTTP response produced by the Express handler. -/
structure HttpResponse where
  statusCode : Nat
  body : JStr
deriving DecidableEq

/-- Function `SQRLExpress.handleSqrlApi`: on success relay the engine's status and
body; on a thrown error compose an error reply with
`tif = CommandFailed | TransientError`, a freshly minted (unregistered)
nut, and status `err.httpStatusCode || 500`. The generator is invoked
once by the engine and once more on the error path (`nutGen 0/1`). The
final line is `err.toString()` without the intended `ask=` label: operator
precedence makes the concatenation the ternary condition, which is always
truthy. -/
def handleSqrlApi {σ : Type} (storage : ISQRLIdentityStorage σ)
    (verify : VerifyFn) (cfg : SQRLStrategyConfig) (nutGen : Nat → NutVal)
    (s : σ) (params : Option ReqParams) : HttpResponse × σ :=
  match authenticateAsync storage verify cfg (nutGen 0) s params with
  | (.ok authResult, s1, _) =>
    ({ statusCode := authResult.httpResponseCode, body := jsStr authResult.body },
      s1)
  | (.error err, s1, _) =>
    let tif : Nat := TIFFlags.CommandFailed ||| TIFFlags.TransientError
    let nextNut := SqrlUrlFactory.nutToString (nutGen 1)
    let serverLines : List JStr :=
      ["ver=1".toList,
       "nut=".toList ++ nextNut,
       "tif=".toList ++ natToHex tif,
       "qry=".toList ++ cfg.urlPath ++ "?nut=".toList ++ nextNut,
       errToString err]
    let resp := base64urlEncodeStr (joinCRLF serverLines ++ "\r\n".toList)
    let status :=
      match errHttpStatusCode err with
      | some st => if st ≠ 0 then st else 500
      | none => 500
    ({ statusCode := status, body := resp }, s1)

/-! ## Registry-backed storage and the poll route, modelled from
`src/testSite/TestSiteHandler.ts`. -/

/-- Class `NutDBRecord` from `TestSiteHandler.ts` (the `createdAt`
timestamp, used only for TTL sweeps, is not modelled). -/
structure NutDBRecord where
  nut : JStr
  url : Option JStr := none
  originalLoginNut : Option JStr := none
  loggedIn : Bool := false
  clientPrimaryIdentityPublicKey : Option JStr := none
deriving DecidableEq

/-- The `ISQRLIdentityStorage` implementation of `TestSiteHandler`
restricted to its nut table (an in-memory NeDB instance): nut issuance is
an insert, nut lookup a `findOne`, and `ident` marks the origin record
logged in. The user-table read `findUserByEitherKeyAsync` is abstracted
as an oracle; `disable`/`enable`/`remove` are the source's TODO stubs
returning an empty `AuthCompletionInfo`. -/
def nutTableStorage
    (findUserByEitherKey : ClientRequestInfo → AuthCompletionInfo) :
    ISQRLIdentityStorage (List NutDBRecord) where
  nutIssuedToClientAsync := fun s urlAndNut originalLoginNut =>
    s ++ [{ nut := urlAndNut.nutString, url := some urlAndNut.url,
            originalLoginNut := originalLoginNut }]
  getNutInfoAsync := fun s nut =>
    ((s.find? (fun r => r.nut = nut)).map
      (fun r => { nut := some r.nut, originalLoginNut := r.originalLoginNut }), s)
  queryAsync := fun s clientRequestInfo _ =>
    (findUserByEitherKey clientRequestInfo, s)
  identAsync := fun s clientRequestInfo nutInfo =>
    let authInfo0 := findUserByEitherKey clientRequestInfo
    let authInfo :=
      if authInfo0.user.isSome then authInfo0
      else { user := some (jsStr clientRequestInfo.primaryIdentityPublicKey),
             tifValues := 0 }
    let targetNut : Option JStr :=
      if jsTruthy nutInfo.originalLoginNut then
        (s.find? (fun r => r.nut = jsStr nutInfo.originalLoginNut)).map (·.nut)
      else
        (s.find? (fun r => some r.nut = nutInfo.nut)).map (·.nut)
    let s2 :=
      match targetNut with
      | none => s
      | some t => s.map (fun r =>
          if r.nut = t then
            { r with loggedIn := true
                     clientPrimaryIdentityPublicKey := authInfo.user }
          else r)
    (authInfo, s2)
  disableAsync := fun s _ _ => ({}, s)
  enableAsync := fun s _ _ => ({}, s)
  removeAsync := fun s _ _ => ({}, s)

/-- Class `UserDBRecord`, restricted to the fields the poll route reads. -/
structure UserDBRecord where
  name : Option JStr := none
  sqrlPrimaryIdentityPublicKey : Option JStr := none
deriving DecidableEq

/-- Body of a `/pollNut` response. -/
inductive PollBody where
  | empty
  | json (loggedIn : Bool) (redirectTo : Option JStr)
  | text (msg : JStr)
deriving DecidableEq

/-- An HTTP response from the poll route. -/
structure PollResponse where
  statusCode : Nat
  body : PollBody
deriving DecidableEq

/-- The login-success redirect configured in `TestSiteHandler`'s
constructor (`const loginSuccessRedirect = '/'`). -/
def loginSuccessRedirect : JStr := "/".toList

/-- The `GET /pollNut/:nut` route handler of `TestSiteHandler`: 404 when
the nut parameter is falsy or has no record; `{loggedIn: false}` when the
record is not logged in or carries no bound identity key; otherwise the
bound key is resolved through the user table (`findUser`, an oracle over
the user store) and the ambient session login (`login`, the PassportJS
`req.login` outcome) before `{loggedIn: true, redirectTo}` is returned. -/
def pollNutRoute (nutParam : Option JStr) (nutTable : List NutDBRecord)
    (findUser : JStr → Except JStr (Option UserDBRecord))
    (login : Option UserDBRecord → Option JStr) : PollResponse :=
  if jsTruthy nutParam then
    match nutTable.find? (fun r => r.nut = jsStr nutParam) with
    | none => { statusCode := 404, body := .empty }
    | some nutRecord =>
      if ¬ nutRecord.loggedIn ∨
          ¬ jsTruthy nutRecord.clientPrimaryIdentityPublicKey then
        { statusCode := 200, body := .json false none }
      else
        match findUser (jsStr nutRecord.clientPrimaryIdentityPublicKey) with
        | .error e => { statusCode := 500, body := .text e }
        | .ok userDBRecord =>
          match login userDBRecord with
          | some loginErr => { statusCode := 400, body := .text loginErr }
          | none =>
            { statusCode := 200,
              body := .json nutRecord.loggedIn (some loginSuccessRedirect) }
  else
    { statusCode := 404, body := .empty }

/-! ### Engine trace lemmas -/

/-- Is a trace event a nut-mint? -/
def isMintEvent : StorageEvent → Bool
  | .mint _ => true
  | _ => false

/-- Is a trace event a nut registration? -/
def isRegisterEvent : StorageEvent → Bool
  | .register _ _ => true
  | _ => false

/-- Is a trace event an identity-store command invocation? -/
def isCommandEvent : StorageEvent → Bool
  | .command _ => true
  | _ => false

/-- Every engine invocation produces one of five trace shapes: parse or
version failure (no events), unknown conversation (no lookup), failed
lookup, registration followed by an unknown command, or registration
followed by exactly one command. -/
theorem authenticateAsync_trace_shape {σ : Type}
    (storage : ISQRLIdentityStorage σ) (verify : VerifyFn)
    (cfg : SQRLStrategyConfig) (nextNutVal : NutVal) (s : σ)
    (params : Option ReqParams) :
    (authenticateAsync storage verify cfg nextNutVal s params).2.2 = [] ∨
    (authenticateAsync storage verify cfg nextNutVal s params).2.2 =
      [StorageEvent.mint (SqrlUrlFactory.nutToString nextNutVal)] ∨
    (∃ n,
      (authenticateAsync storage verify cfg nextNutVal s params).2.2 =
        [StorageEvent.lookup n none,
         StorageEvent.mint (SqrlUrlFactory.nutToString nextNutVal)]) ∨
    (∃ n R,
      (authenticateAsync storage verify cfg nextNutVal s params).2.2 =
        [StorageEvent.lookup n (some R),
         StorageEvent.mint (SqrlUrlFactory.nutToString nextNutVal),
         StorageEvent.register (SqrlUrlFactory.nutToString nextNutVal)
           (jsOrOpt R.originalLoginNut R.nut)]) ∨
    (∃ n R c,
      (authenticateAsync storage verify cfg nextNutVal s params).2.2 =
        [StorageEvent.lookup n (some R),
         StorageEvent.mint (SqrlUrlFactory.nutToString nextNutVal),
         StorageEvent.register (SqrlUrlFactory.nutToString nextNutVal)
           (jsOrOpt R.originalLoginNut R.nut),
         StorageEvent.command c]) := by
  unfold authenticateAsync
  cases hp : parseAndValidateRequestFields verify params with
  | error e => exact Or.inl rfl
  | ok cri =>
    dsimp only
    by_cases hv : cri.protocolVersion ≠ some 1
    · rw [if_pos hv]
      exact Or.inl rfl
    · rw [if_neg hv]
      cases hn : cri.nut with
      | none =>
        dsimp only
        exact Or.inr (Or.inl rfl)
      | some n =>
        dsimp only
        cases hr : (storage.getNutInfoAsync s n).1 with
        | none =>
          dsimp only
          exact Or.inr (Or.inr (Or.inl ⟨n, by simp⟩))
        | some nutInfo =>
          dsimp only
          by_cases h1 : cri.sqrlCommand = some "query".toList
          · rw [if_pos h1]
            exact Or.inr (Or.inr (Or.inr (Or.inr ⟨n, nutInfo, cri.sqrlCommand, by simp⟩)))
          · rw [if_neg h1]
            by_cases h2 : cri.sqrlCommand = some "ident".toList
            · rw [if_pos h2]
              exact Or.inr (Or.inr (Or.inr (Or.inr ⟨n, nutInfo, cri.sqrlCommand, by simp⟩)))
            · rw [if_neg h2]
              by_cases h3 : cri.sqrlCommand = some "disable".toList
              · rw [if_pos h3]
                exact Or.inr (Or.inr (Or.inr (Or.inr ⟨n, nutInfo, cri.sqrlCommand, by simp⟩)))
              · rw [if_neg h3]
                by_cases h4 : cri.sqrlCommand = some "enable".toList
                · rw [if_pos h4]
                  exact Or.inr (Or.inr (Or.inr (Or.inr ⟨n, nutInfo, cri.sqrlCommand, by simp⟩)))
                · rw [if_neg h4]
                  by_cases h5 : cri.sqrlCommand = some "remove".toList
                  · rw [if_pos h5]
                    exact Or.inr (Or.inr (Or.inr (Or.inr ⟨n, nutInfo, cri.sqrlCommand, by simp⟩)))
                  · rw [if_neg h5]
                    exact Or.inr (Or.inr (Or.inr (Or.inl ⟨n, nutInfo, by simp⟩)))

/-- C5. In every engine invocation that reaches command dispatch,
exactly one fresh nut is minted and its registration
(`nutIssuedToClientAsync`) completes before any identity-store command
operation (`queryAsync`, `identAsync`, `disableAsync`, `enableAsync`,
`removeAsync`) is invoked: the trace is a prefix containing exactly one
mint and one registration of the fresh nut and no command, followed by
the single command event. -/
theorem claim_C5 {σ : Type} (storage : ISQRLIdentityStorage σ)
    (verify : VerifyFn) (cfg : SQRLStrategyConfig) (nextNutVal : NutVal)
    (s : σ) (params : Option ReqParams) :
    1 ≤ ((authenticateAsync storage verify cfg nextNutVal s
        params).2.2.countP isCommandEvent) →
    ∃ pre c,
      (authenticateAsync storage verify cfg nextNutVal s params).2.2 =
        pre ++ [StorageEvent.command c] ∧
      pre.countP isMintEvent = 1 ∧
      pre.countP isRegisterEvent = 1 ∧
      pre.countP isCommandEvent = 0 ∧
      StorageEvent.mint (SqrlUrlFactory.nutToString nextNutVal) ∈ pre ∧
      (∃ origin,
        StorageEvent.register (SqrlUrlFactory.nutToString nextNutVal) origin ∈
          pre) := by
  intro h
  rcases authenticateAsync_trace_shape storage verify cfg nextNutVal s params
    with h0 | h1 | ⟨n, h2⟩ | ⟨n, R, h3⟩ | ⟨n, R, c, h4⟩
  · rw [h0] at h
    simp at h
  · rw [h1] at h
    simp [List.countP_cons, isCommandEvent] at h
  · rw [h2] at h
    simp [List.countP_cons, isCommandEvent] at h
  · rw [h3] at h
    simp [List.countP_cons, isCommandEvent] at h
  · refine ⟨[StorageEvent.lookup n (some R),
      StorageEvent.mint (SqrlUrlFactory.nutToString nextNutVal),
      StorageEvent.register (SqrlUrlFactory.nutToString nextNutVal)
        (jsOrOpt R.originalLoginNut R.nut)], c, ?_, ?_, ?_, ?_, ?_, ?_⟩
    · rw [h4]
      rfl
    · simp [List.countP_cons, isMintEvent]
    · simp [List.countP_cons, isRegisterEvent]
    · simp [List.countP_cons, isCommandEvent]
    · simp
    · exact ⟨jsOrOpt R.originalLoginNut R.nut, by simp⟩

/-- A concrete well-formed client envelope (`ver=1`, `cmd=query`,
`idk=k`) used to exercise the engine at concrete inputs. -/
def fixtureClient : JStr := base64urlEncodeStr "ver=1\r\ncmd=query\r\nidk=k\r\n".toList

/-- A concrete `server=` field: a previous server reply carrying
`nut=1234`. -/
def fixtureServer : JStr := base64urlEncodeStr "nut=1234\r\n".toList

/-- A concrete POST body presenting nut `1234`. -/
def fixtureParams : ReqParams :=
  { client := some fixtureClient, server := some fixtureServer,
    ids := some "SIG".toList }

/-- A registry state knowing the origin nut `1234`. -/
def fixtureTable : List NutDBRecord := [{ nut := "1234".toList }]

/-- A concrete engine configuration. -/
def fixtureCfg : SQRLStrategyConfig := { urlPath := "/sqrl".toList }

/-- A signature oracle that accepts everything (a keypair-consistent
envelope). -/
def vTrue : VerifyFn := fun _ _ _ => true

/-- A signature oracle that rejects everything (a corrupted signature). -/
def vFalse : VerifyFn := fun _ _ _ => false

/-- A user-table oracle with no known identities. -/
def emptyUserTable : ClientRequestInfo → AuthCompletionInfo := fun _ => {}

/-- Witness for C5: a concrete query request against a registry knowing
nut `1234` reaches dispatch, and the theorem applies. -/
theorem claim_C5_witness :
    1 ≤ ((authenticateAsync (nutTableStorage emptyUserTable) vTrue fixtureCfg
        (NutVal.str "N2".toList) fixtureTable
        (some fixtureParams)).2.2.countP isCommandEvent) ∧
    ∃ pre c,
      (authenticateAsync (nutTableStorage emptyUserTable) vTrue fixtureCfg
        (NutVal.str "N2".toList) fixtureTable
        (some fixtureParams)).2.2 = pre ++ [StorageEvent.command c] ∧
      pre.countP isMintEvent = 1 ∧
      pre.countP isRegisterEvent = 1 ∧
      pre.countP isCommandEvent = 0 ∧
      StorageEvent.mint (SqrlUrlFactory.nutToString (NutVal.str "N2".toList)) ∈
        pre ∧
      (∃ origin,
        StorageEvent.register
          (SqrlUrlFactory.nutToString (NutVal.str "N2".toList)) origin ∈
          pre) := by
  refine ⟨by decide, claim_C5 _ _ _ _ _ _ (by decide)⟩

/-! ### Registry invariants for C3 -/

theorem jsTruthy_iff (o : Option JStr) :
    jsTruthy o = true ↔ ∃ s, o = some s ∧ s ≠ [] := by
  cases o <;> simp [jsTruthy]

/-- Well-formed registry: no record has an empty nut name or an empty
origin pointer (nut strings come from `nutToString` of generated nuts). -/
def RegWF (s : List NutDBRecord) : Prop :=
  ∀ r ∈ s, r.nut ≠ [] ∧ r.originalLoginNut ≠ some []

/-- The ancestry invariant: every origin pointer refers (when its target
is still present) to a record that is itself an origin, so chains are at
most one step deep. -/
def RegInvariant (s : List NutDBRecord) : Prop :=
  ∀ r ∈ s, ∀ o, r.originalLoginNut = some o →
    ∀ r' ∈ s, r'.nut = o → r'.originalLoginNut = none

/-- Nut names are unique registry keys. -/
def RegUnique (s : List NutDBRecord) : Prop :=
  s.Pairwise (fun a b => a.nut ≠ b.nut)

/-- A freshly minted nut string: unused as a name and as an origin
pointer. -/
def FreshNut (s : List NutDBRecord) (m : JStr) : Prop :=
  ∀ r ∈ s, r.nut ≠ m ∧ r.originalLoginNut ≠ some m

theorem uniq_nut_eq {s : List NutDBRecord} (hU : RegUnique s) {a b : NutDBRecord}
    (ha : a ∈ s) (hb : b ∈ s) (h : a.nut = b.nut) : a = b := by
  induction s with
  | nil => cases ha
  | cons x xs ih =>
    rcases List.pairwise_cons.mp hU with ⟨hx, hxs⟩
    rcases List.mem_cons.mp ha with rfl | ha'
    · rcases List.mem_cons.mp hb with rfl | hb'
      · rfl
      · exact absurd h (hx b hb')
    · rcases List.mem_cons.mp hb with rfl | hb'
      · exact absurd h.symm (hx a ha')
      · exact ih hxs ha' hb'

theorem reg_insert_preserves (s : List NutDBRecord) (r new : NutDBRecord)
    (hr : r ∈ s)
    (hnn : new.originalLoginNut = jsOrOpt r.originalLoginNut (some r.nut))
    (hWF : RegWF s) (hInv : RegInvariant s) (hU : RegUnique s)
    (hfresh : FreshNut s new.nut) (hm : new.nut ≠ []) :
    RegWF (s ++ [new]) ∧ RegInvariant (s ++ [new]) ∧ RegUnique (s ++ [new]) := by
  have horig : (new.originalLoginNut = r.originalLoginNut ∧
      jsTruthy r.originalLoginNut = true) ∨
      (new.originalLoginNut = some r.nut ∧ r.originalLoginNut = none) := by
    by_cases ht : jsTruthy r.originalLoginNut = true
    · exact Or.inl ⟨by rw [hnn]; simp [jsOrOpt, ht], ht⟩
    · right
      refine ⟨by rw [hnn]; simp [jsOrOpt, ht], ?_⟩
      cases hcase : r.originalLoginNut with
      | none => rfl
      | some o0 =>
        exfalso
        cases ho0 : o0 with
        | nil =>
          exact (hWF r hr).2 (by rw [hcase, ho0])
        | cons c cs =>
          apply ht
          rw [jsTruthy_iff]
          exact ⟨o0, hcase, by rw [ho0]; simp⟩
  refine ⟨?_, ?_, ?_⟩
  · intro x hx
    rcases List.mem_append.mp hx with hx' | hx'
    · exact hWF x hx'
    · have hxe : x = new := by simpa using hx'
      subst hxe
      refine ⟨hm, ?_⟩
      rcases horig with ⟨he, ht⟩ | ⟨he, hnone⟩
      · rw [he]
        exact (hWF r hr).2
      · rw [he]
        intro hcon
        exact (hWF r hr).1 (by simpa using hcon)
  · intro x hx o hxo y hy hynut
    rcases List.mem_append.mp hx with hx' | hx'
    · rcases List.mem_append.mp hy with hy' | hy'
      · exact hInv x hx' o hxo y hy' hynut
      · have hye : y = new := by simpa using hy'
        have hom : o = new.nut := by rw [← hynut, hye]
        exact absurd (hom ▸ hxo) (hfresh x hx').2
    · have hxe : x = new := by simpa using hx'
      rw [hxe] at hxo
      rcases horig with ⟨he, ht⟩ | ⟨he, hnone⟩
      · rw [he] at hxo
        rcases List.mem_append.mp hy with hy' | hy'
        · exact hInv r hr o hxo y hy' hynut
        · have hye : y = new := by simpa using hy'
          have hom : o = new.nut := by rw [← hynut, hye]
          exact absurd (hom ▸ hxo) (hfresh r hr).2
      · rw [he] at hxo
        obtain rfl : r.nut = o := Option.some.inj hxo
        rcases List.mem_append.mp hy with hy' | hy'
        · have hyr : y = r := uniq_nut_eq hU hy' hr hynut
          rw [hyr, hnone]
        · have hye : y = new := by simpa using hy'
          exfalso
          apply (hfresh r hr).1
          rw [← hynut, hye]
  · unfold RegUnique
    rw [List.pairwise_append]
    refine ⟨hU, by simp, ?_⟩
    intro a ha b hb
    have hbe : b = new := by simpa using hb
    rw [hbe]
    exact (hfresh a ha).1

theorem reg_map_preserves (s : List NutDBRecord) (f : NutDBRecord → NutDBRecord)
    (hf : ∀ r, (f r).nut = r.nut ∧ (f r).originalLoginNut = r.originalLoginNut)
    (hWF : RegWF s) (hInv : RegInvariant s) (hU : RegUnique s) :
    RegWF (s.map f) ∧ RegInvariant (s.map f) ∧ RegUnique (s.map f) := by
  refine ⟨?_, ?_, ?_⟩
  · intro x hx
    rcases List.mem_map.mp hx with ⟨r, hr, rfl⟩
    rw [(hf r).1, (hf r).2]
    exact hWF r hr
  · intro x hx o hxo y hy hynut
    rcases List.mem_map.mp hx with ⟨rx, hrx, rfl⟩
    rcases List.mem_map.mp hy with ⟨ry, hry, rfl⟩
    rw [(hf rx).2] at hxo
    rw [(hf ry).1] at hynut
    rw [(hf ry).2]
    exact hInv rx hrx o hxo ry hry hynut
  · unfold RegUnique
    rw [List.pairwise_map]
    exact hU.imp (fun {a b} hab => by rw [(hf a).1, (hf b).1]; exact hab)

/-- C3. On every successful engine invocation that consumed an
existing nut record `R`, the freshly minted nut is registered with origin
nut equal to `R.originalLoginNut` when that field is set (truthy), and
equal to `R.nut` otherwise (part 1, over any storage); consequently, for
the registry-backed storage, every non-origin nut record keeps pointing
directly to the conversation's origin nut — the ancestry chain stays at
most one step deep (part 2); and the request fails with `UnknownNut` when
the lookup of the presented nut returns no record (part 3). -/
theorem claim_C3 :
    (∀ (σ : Type) (storage : ISQRLIdentityStorage σ) (verify : VerifyFn)
      (cfg : SQRLStrategyConfig) (nextNutVal : NutVal) (s : σ)
      (params : Option ReqParams) (m : JStr) (o : Option JStr),
      StorageEvent.register m o ∈
        (authenticateAsync storage verify cfg nextNutVal s params).2.2 →
      m = SqrlUrlFactory.nutToString nextNutVal ∧
      ∃ n R, StorageEvent.lookup n (some R) ∈
          (authenticateAsync storage verify cfg nextNutVal s params).2.2 ∧
        o = jsOrOpt R.originalLoginNut R.nut) ∧
    (∀ (f : ClientRequestInfo → AuthCompletionInfo) (verify : VerifyFn)
      (cfg : SQRLStrategyConfig) (nextNutVal : NutVal)
      (s : List NutDBRecord) (params : Option ReqParams),
      RegWF s → RegInvariant s → RegUnique s →
      FreshNut s (SqrlUrlFactory.nutToString nextNutVal) →
      SqrlUrlFactory.nutToString nextNutVal ≠ [] →
      RegWF (authenticateAsync (nutTableStorage f) verify cfg nextNutVal s
        params).2.1 ∧
      RegInvariant (authenticateAsync (nutTableStorage f) verify cfg
        nextNutVal s params).2.1 ∧
      RegUnique (authenticateAsync (nutTableStorage f) verify cfg nextNutVal
        s params).2.1) ∧
    (∀ (σ : Type) (storage : ISQRLIdentityStorage σ) (verify : VerifyFn)
      (cfg : SQRLStrategyConfig) (nextNutVal : NutVal) (s : σ)
      (params : Option ReqParams) (cri : ClientRequestInfo) (n : JStr),
      parseAndValidateRequestFields verify params = Except.ok cri →
      cri.protocolVersion = some 1 →
      cri.nut = some n →
      (storage.getNutInfoAsync s n).1 = none →
      (authenticateAsync storage verify cfg nextNutVal s params).1 =
        Except.error
          (SqrlError.client "Client presented unknown nut value".toList 400)) := by
  refine ⟨?_, ?_, ?_⟩
  · intro σ storage verify cfg nextNutVal s params m o hmem
    rcases authenticateAsync_trace_shape storage verify cfg nextNutVal s
      params with h0 | h1 | ⟨n, h2⟩ | ⟨n, R, h3⟩ | ⟨n, R, c, h4⟩
    · rw [h0] at hmem
      simp at hmem
    · rw [h1] at hmem
      simp at hmem
    · rw [h2] at hmem
      simp at hmem
    · rw [h3] at hmem
      simp only [List.mem_cons, List.not_mem_nil, or_false] at hmem
      rcases hmem with h | h | h
      · exact absurd h (by simp)
      · exact absurd h (by simp)
      · obtain ⟨hm, ho⟩ := by simpa using h
        exact ⟨hm, n, R, by rw [h3]; simp, ho⟩
    · rw [h4] at hmem
      simp only [List.mem_cons, List.not_mem_nil, or_false] at hmem
      rcases hmem with h | h | h | h
      · exact absurd h (by simp)
      · exact absurd h (by simp)
      · obtain ⟨hm, ho⟩ := by simpa using h
        exact ⟨hm, n, R, by rw [h4]; simp, ho⟩
      · exact absurd h (by simp)
  · intro f verify cfg nextNutVal s params hWF hInv hU hfresh hm
    unfold authenticateAsync
    cases hp : parseAndValidateRequestFields verify params with
    | error e => exact ⟨hWF, hInv, hU⟩
    | ok cri =>
      dsimp only
      by_cases hv : cri.protocolVersion ≠ some 1
      · rw [if_pos hv]
        exact ⟨hWF, hInv, hU⟩
      · rw [if_neg hv]
        cases hn : cri.nut with
        | none =>
          dsimp only [nutTableStorage]
          exact ⟨hWF, hInv, hU⟩
        | some n =>
          dsimp only [nutTableStorage]
          cases hfind : s.find? (fun x => x.nut = n) with
          | none =>
            simp only [hfind, Option.map_none']
            exact ⟨hWF, hInv, hU⟩
          | some r0 =>
            have hr0 : r0 ∈ s := List.mem_of_find?_eq_some hfind
            simp only [hfind, Option.map_some']
            dsimp only
            have hins := reg_insert_preserves s r0
              { nut := SqrlUrlFactory.nutToString nextNutVal
                url := some (cfg.urlPath ++ "?nut=".toList ++
                  SqrlUrlFactory.nutToString nextNutVal)
                originalLoginNut := jsOrOpt r0.originalLoginNut (some r0.nut) }
              hr0 rfl hWF hInv hU hfresh hm
            by_cases h1 : cri.sqrlCommand = some "query".toList
            · rw [if_pos h1]
              exact hins
            · rw [if_neg h1]
              by_cases h2 : cri.sqrlCommand = some "ident".toList
              · rw [if_pos h2]
                dsimp only
                split
                · exact hins
                · rename_i t heq
                  exact reg_map_preserves _ _
                    (by
                      intro rr
                      by_cases hrt : rr.nut = t <;> simp [hrt])
                    hins.1 hins.2.1 hins.2.2
              · rw [if_neg h2]
                by_cases h3 : cri.sqrlCommand = some "disable".toList
                · rw [if_pos h3]
                  exact hins
                · rw [if_neg h3]
                  by_cases h4 : cri.sqrlCommand = some "enable".toList
                  · rw [if_pos h4]
                    exact hins
                  · rw [if_neg h4]
                    by_cases h5 : cri.sqrlCommand = some "remove".toList
                    · rw [if_pos h5]
                      exact hins
                    · rw [if_neg h5]
                      exact hins
  · intro σ storage verify cfg nextNutVal s params cri n hp hver hnut hnone
    unfold authenticateAsync
    rw [hp]
    dsimp only
    rw [if_neg (by simp [hver])]
    rw [hnut]
    dsimp only
    rw [hnone]

deriving instance DecidableEq for Except

/-- The `ClientRequestInfo` produced by parsing `fixtureParams`. -/
def fixtureCri : ClientRequestInfo :=
  { protocolVersion := some 1, sqrlCommand := some "query".toList,
    nut := some "1234".toList, primaryIdentityPublicKey := some "k".toList }

/-- Witness for C3 at a concrete run: the fresh nut `N2` is registered
with origin `1234`; the registry invariants are preserved; and the same
request against an empty registry fails with `UnknownNut`. -/
theorem claim_C3_witness :
    ("N2".toList = SqrlUrlFactory.nutToString (NutVal.str "N2".toList) ∧
      ∃ n R, StorageEvent.lookup n (some R) ∈
          (authenticateAsync (nutTableStorage emptyUserTable) vTrue fixtureCfg
            (NutVal.str "N2".toList) fixtureTable (some fixtureParams)).2.2 ∧
        some "1234".toList = jsOrOpt R.originalLoginNut R.nut) ∧
    (RegWF (authenticateAsync (nutTableStorage emptyUserTable) vTrue
        fixtureCfg (NutVal.str "N2".toList) fixtureTable
        (some fixtureParams)).2.1 ∧
      RegInvariant (authenticateAsync (nutTableStorage emptyUserTable) vTrue
        fixtureCfg (NutVal.str "N2".toList) fixtureTable
        (some fixtureParams)).2.1 ∧
      RegUnique (authenticateAsync (nutTableStorage emptyUserTable) vTrue
        fixtureCfg (NutVal.str "N2".toList) fixtureTable
        (some fixtureParams)).2.1) ∧
    (authenticateAsync (nutTableStorage emptyUserTable) vTrue fixtureCfg
        (NutVal.str "N3".toList) [] (some fixtureParams)).1 =
      Except.error
        (SqrlError.client "Client presented unknown nut value".toList 400) := by
  refine ⟨claim_C3.1 _ _ _ _ _ _ _ _ _ (by decide),
    claim_C3.2.1 emptyUserTable vTrue fixtureCfg (NutVal.str "N2".toList)
      fixtureTable (some fixtureParams) (by unfold RegWF; decide) ?_
      (by unfold RegUnique; decide) (by unfold FreshNut; decide) (by decide),
    claim_C3.2.2 _ (nutTableStorage emptyUserTable) vTrue fixtureCfg
      (NutVal.str "N3".toList) [] (some fixtureParams) fixtureCri
      "1234".toList (by decide) rfl rfl (by decide)⟩
  intro r hr o ho
  have hre : r = ({ nut := "1234".toList } : NutDBRecord) := by
    simpa [fixtureTable] using hr
  rw [hre] at ho
  simp at ho

/-! ### Validator lemmas for C4 -/

theorem applyOpt_preserves_keys {ri : ClientRequestInfo} {opt : JStr}
    {ri' : ClientRequestInfo} (h : applyOpt ri opt = Except.ok ri') :
    ri'.primaryIdentityPublicKey = ri.primaryIdentityPublicKey ∧
    ri'.previousIdentityPublicKey = ri.previousIdentityPublicKey := by
  unfold applyOpt at h
  split_ifs at h <;> cases h <;> exact ⟨rfl, rfl⟩

theorem foldlM_applyOpt_preserves_keys (l : List JStr) :
    ∀ {ri ri' : ClientRequestInfo}, l.foldlM applyOpt ri = Except.ok ri' →
    ri'.primaryIdentityPublicKey = ri.primaryIdentityPublicKey ∧
    ri'.previousIdentityPublicKey = ri.previousIdentityPublicKey := by
  induction l with
  | nil =>
    intro ri ri' h
    cases h
    exact ⟨rfl, rfl⟩
  | cons x xs ih =>
    intro ri ri' h
    rw [List.foldlM_cons] at h
    cases hx : applyOpt ri x with
    | error e =>
      rw [hx] at h
      cases h
    | ok mid =>
      rw [hx] at h
      have h1 := applyOpt_preserves_keys hx
      have h2 := ih h
      exact ⟨h2.1.trans h1.1, h2.2.trans h1.2⟩

theorem applyOpts_preserves_keys {ri : ClientRequestInfo}
    {optField : Option JStr} {ri' : ClientRequestInfo}
    (h : applyOpts ri optField = Except.ok ri') :
    ri'.primaryIdentityPublicKey = ri.primaryIdentityPublicKey ∧
    ri'.previousIdentityPublicKey = ri.previousIdentityPublicKey := by
  unfold applyOpts at h
  split at h
  · exact foldlM_applyOpt_preserves_keys _ h
  · cases h
    exact ⟨rfl, rfl⟩

/-- C4. For every request accepted by the validator, the `ids`
Ed25519 signature was verified against the `idk` public key over the
UTF-8 bytes of the concatenation of the still-base64url-encoded `client`
and `server` strings; and whenever `pidk` is present a `pids` signature
was required and verified against `pidk` over the same bytes (part 1).
And whenever the request reaches the primary signature check and
verification fails, the validator raises the BadSignature error
`Primary public key did not verify correctly` (part 2). -/
theorem claim_C4 (verify : VerifyFn) (p : ReqParams) :
    (∀ cri : ClientRequestInfo,
      parseAndValidateRequestFields verify (some p) = Except.ok cri →
      jsTruthy p.client = true ∧ jsTruthy p.server = true ∧
      jsTruthy p.ids = true ∧
      verify (utf8Encode (jsStr p.client ++ jsStr p.server))
        (nodeBase64Decode (jsStr p.ids))
        (nodeBase64Decode (jsStr cri.primaryIdentityPublicKey)) = true ∧
      (jsTruthy cri.previousIdentityPublicKey = true →
        jsTruthy p.pids = true ∧
        verify (utf8Encode (jsStr p.client ++ jsStr p.server))
          (nodeBase64Decode (jsStr p.pids))
          (nodeBase64Decode (jsStr cri.previousIdentityPublicKey)) = true)) ∧
    (∀ clientProps : Props,
      jsTruthy p.client = true → jsTruthy p.server = true →
      parseBase64CRLFSeparatedFields (jsStr p.client) =
        Except.ok clientProps →
      jsTruthy (getProp clientProps "idk".toList) = true →
      jsTruthy p.ids = true →
      verify (utf8Encode (jsStr p.client ++ jsStr p.server))
        (nodeBase64Decode (jsStr p.ids))
        (nodeBase64Decode (jsStr (getProp clientProps "idk".toList))) =
        false →
      parseAndValidateRequestFields verify (some p) =
        Except.error (SqrlError.client
          "Primary public key did not verify correctly".toList 400)) := by
  constructor
  · intro cri hok
    unfold parseAndValidateRequestFields at hok
    dsimp only at hok
    split at hok
    · cases hok
    · split at hok
      · cases hok
      · rename_i hcl hsv
        rw [not_not] at hcl hsv
        split at hok
        · cases hok
        · rename_i clientProps hcp
          split at hok
          · cases hok
          · split at hok
            · cases hok
            · rename_i hidk hids
              rw [not_not] at hids
              split at hok
              · cases hok
              · rename_i hverify
                rw [not_not] at hverify
                split at hok
                · cases hok
                · rename_i u hprev
                  split at hok
                  · cases hok
                  · rename_i nutVal hnut
                    split at hok
                    · cases hok
                    · have hkeys := applyOpts_preserves_keys hok
                      have hprim : cri.primaryIdentityPublicKey =
                          getProp clientProps "idk".toList := hkeys.1
                      have hprev2 : cri.previousIdentityPublicKey =
                          getProp clientProps "pidk".toList := hkeys.2
                      refine ⟨hcl, hsv, hids, by rw [hprim]; exact hverify, ?_⟩
                      intro hptruthy
                      rw [hprev2] at hptruthy
                      rw [hprev2]
                      split at hprev
                      · rename_i hpidkt
                        split at hprev
                        · cases hprev
                        · rename_i hpids
                          rw [not_not] at hpids
                          split at hprev
                          · cases hprev
                          · rename_i hpverify
                            rw [not_not] at hpverify
                            exact ⟨hpids, hpverify⟩
                      · rename_i hpidkf
                        exact absurd hptruthy hpidkf
  · intro clientProps hcl hsv hcp hidk hids hvfalse
    unfold parseAndValidateRequestFields
    dsimp only
    rw [if_neg (by rw [hcl]; simp), if_neg (by rw [hsv]; simp), hcp]
    dsimp only
    rw [if_neg (by rw [hidk]; simp), if_neg (by rw [hids]; simp),
      if_pos (by rw [hvfalse]; simp)]

/-- Witness for C4: the fixture envelope is accepted when the signature
oracle accepts (and the acceptance implies verification held), and the
same envelope with a failing signature oracle raises BadSignature. -/
theorem claim_C4_witness :
    (jsTruthy fixtureParams.client = true ∧
      jsTruthy fixtureParams.server = true ∧
      jsTruthy fixtureParams.ids = true ∧
      vTrue (utf8Encode (jsStr fixtureParams.client ++
          jsStr fixtureParams.server))
        (nodeBase64Decode (jsStr fixtureParams.ids))
        (nodeBase64Decode (jsStr fixtureCri.primaryIdentityPublicKey)) =
        true ∧
      (jsTruthy fixtureCri.previousIdentityPublicKey = true →
        jsTruthy fixtureParams.pids = true ∧
        vTrue (utf8Encode (jsStr fixtureParams.client ++
            jsStr fixtureParams.server))
          (nodeBase64Decode (jsStr fixtureParams.pids))
          (nodeBase64Decode (jsStr fixtureCri.previousIdentityPublicKey)) =
          true)) ∧
    parseAndValidateRequestFields vFalse (some fixtureParams) =
      Except.error (SqrlError.client
        "Primary public key did not verify correctly".toList 400) := by
  refine ⟨(claim_C4 vTrue fixtureParams).1 fixtureCri (by decide),
    (claim_C4 vFalse fixtureParams).2
      [("ver".toList, "1".toList), ("cmd".toList, "query".toList),
        ("idk".toList, "k".toList)]
      (by decide) (by decide) (by decide) (by decide) (by decide)
      (by decide)⟩

/-- First engine call: the fixture request presents nut `1234`, which the
registry knows. -/
def fixtureRun1 :
    Except SqrlError AuthenticateAsyncResult × List NutDBRecord ×
      List StorageEvent :=
  authenticateAsync (nutTableStorage emptyUserTable) vTrue fixtureCfg
    (NutVal.str "N2".toList) fixtureTable (some fixtureParams)

/-- Second engine call: the same request, bearing the same nut `1234`,
against the registry state left by the first call. -/
def fixtureRun2 :
    Except SqrlError AuthenticateAsyncResult × List NutDBRecord ×
      List StorageEvent :=
  authenticateAsync (nutTableStorage emptyUserTable) vTrue fixtureCfg
    (NutVal.str "N3".toList) fixtureRun1.2.1 (some fixtureParams)

/-- C1 (code bug). The engine never consumes nut records: after a
successful call consuming nut `1234`, a second request bearing the same
nut `1234` is again processed successfully with HTTP 200 — it does *not*
fail with the UnknownNut error, contradicting the claimed single-use
discipline. -/
theorem claim_C1 :
    fixtureRun1.1.toOption.map (fun r => r.httpResponseCode) = some 200 ∧
    fixtureRun2.1.toOption.map (fun r => r.httpResponseCode) = some 200 ∧
    fixtureRun2.1 ≠ Except.error (SqrlError.client
      "Client presented unknown nut value".toList 400) := by
  refine ⟨by decide, by decide, by decide⟩

/-- A nut generator stream: `N2` for the engine call, `EN` for the error
path. -/
def fixtureNutGen : Nat → NutVal :=
  fun i => NutVal.str (if i = 0 then "N2".toList else "EN".toList)

/-- A POST body whose `client` block has a CRLF line without `=`. -/
def fixtureBadParams : ReqParams :=
  { client := some (base64urlEncodeStr "noequals\r\n".toList),
    server := some fixtureServer, ids := some "SIG".toList }

/-- C2 (code bug). On a bad-signature request the handler replies
HTTP 400 with a normally framed body carrying a fresh nut, but its `tif`
field is `60` = `CommandFailed | TransientError`: the `ClientFailure` bit
(0x80) demanded by the claim is not set (and the `ask=` label is lost to
an operator-precedence slip, leaving a bare `Error:` line). Moreover a
malformed envelope whose CRLF line lacks `=` throws a bare `Error`
without `httpStatusCode`, so the handler replies 500, not 400. -/
theorem claim_C2 :
    (handleSqrlApi (nutTableStorage emptyUserTable) vFalse fixtureCfg
      fixtureNutGen fixtureTable (some fixtureParams)).1.statusCode = 400 ∧
    base64urlDecodeStr (handleSqrlApi (nutTableStorage emptyUserTable)
        vFalse fixtureCfg fixtureNutGen fixtureTable
        (some fixtureParams)).1.body =
      ("ver=1\r\nnut=EN\r\ntif=60\r\nqry=/sqrl?nut=EN\r\n" ++
        "Error: Primary public key did not verify correctly\r\n").toList ∧
    natToHex (TIFFlags.CommandFailed ||| TIFFlags.TransientError) =
      "60".toList ∧
    (TIFFlags.CommandFailed ||| TIFFlags.TransientError) &&&
      TIFFlags.ClientFailure = 0 ∧
    (handleSqrlApi (nutTableStorage emptyUserTable) vTrue fixtureCfg
      fixtureNutGen fixtureTable (some fixtureBadParams)).1.statusCode =
      500 := by
  refine ⟨by decide, by decide, by decide, by decide, by decide⟩

/-- C9. For every GET of the poll endpoint with nut parameter `P`:
when no record for `P` exists the response status is 404; when a record
exists but is not logged in the body is `{loggedIn: false}`; and when the
record is logged in with a bound primary identity public key that
resolves to a user (and the ambient session login succeeds), the body is
`{loggedIn: true, redirectTo: <configured success URL>}`. -/
theorem claim_C9 (nutParam : Option JStr) (nutTable : List NutDBRecord)
    (findUser : JStr → Except JStr (Option UserDBRecord))
    (login : Option UserDBRecord → Option JStr) :
    (jsTruthy nutParam = true →
      nutTable.find? (fun r => r.nut = jsStr nutParam) = none →
      pollNutRoute nutParam nutTable findUser login =
        { statusCode := 404, body := PollBody.empty }) ∧
    (∀ nutRecord, jsTruthy nutParam = true →
      nutTable.find? (fun r => r.nut = jsStr nutParam) = some nutRecord →
      nutRecord.loggedIn = false →
      pollNutRoute nutParam nutTable findUser login =
        { statusCode := 200, body := PollBody.json false none }) ∧
    (∀ nutRecord u, jsTruthy nutParam = true →
      nutTable.find? (fun r => r.nut = jsStr nutParam) = some nutRecord →
      nutRecord.loggedIn = true →
      jsTruthy nutRecord.clientPrimaryIdentityPublicKey = true →
      findUser (jsStr nutRecord.clientPrimaryIdentityPublicKey) =
        Except.ok (some u) →
      login (some u) = none →
      pollNutRoute nutParam nutTable findUser login =
        { statusCode := 200,
          body := PollBody.json true (some loginSuccessRedirect) }) := by
  refine ⟨?_, ?_, ?_⟩
  · intro ht hfind
    unfold pollNutRoute
    rw [if_pos ht, hfind]
  · intro nutRecord ht hfind hlog
    unfold pollNutRoute
    rw [if_pos ht, hfind]
    dsimp only
    rw [if_pos (by rw [hlog]; simp)]
  · intro nutRecord u ht hfind hlog hkey hfound hlogin
    unfold pollNutRoute
    rw [if_pos ht, hfind]
    dsimp only
    rw [if_neg (by rw [hlog, hkey]; simp), hfound]
    dsimp only
    rw [hlogin]
    dsimp only
    rw [hlog]

/-- Witness for C9: the three poll outcomes at concrete registries. -/
theorem claim_C9_witness :
    pollNutRoute (some "O".toList) [] (fun _ => Except.ok none)
      (fun _ => none) = { statusCode := 404, body := PollBody.empty } ∧
    pollNutRoute (some "O".toList) [{ nut := "O".toList }]
      (fun _ => Except.ok none) (fun _ => none) =
      { statusCode := 200, body := PollBody.json false none } ∧
    pollNutRoute (some "O".toList)
      [{ nut := "O".toList, loggedIn := true,
         clientPrimaryIdentityPublicKey := some "k".toList }]
      (fun _ => Except.ok (some { name := some "bob".toList }))
      (fun _ => none) =
      { statusCode := 200,
        body := PollBody.json true (some loginSuccessRedirect) } := by
  refine ⟨(claim_C9 _ _ _ _).1 (by decide) (by decide),
    (claim_C9 _ _ _ _).2.1 { nut := "O".toList } (by decide) (by decide)
      (by decide),
    (claim_C9 _ _ _ _).2.2
      { nut := "O".toList, loggedIn := true,
        clientPrimaryIdentityPublicKey := some "k".toList }
      { name := some "bob".toList } (by decide) (by decide) (by decide)
      (by decide) rfl rfl⟩
